import Mathlib

/-!
Verification of the aspect-wrap execution engine.

This file gives a shallow embedding, in Lean 4, of the core of the
aspect-wrap library (src/lib/types.ts, src/lib/logger.ts and the
retry module) and proves properties of the embedded operations.

Modelling conventions:
  * Errors are values of an abstract type `E`; the library's `BaseError`
    shape (an optional numeric `status` field) is the concrete type `BErr`.
  * A thunk that may be re-invoked is modelled as a function
    `Nat → Except E V` giving the outcome of its k-th invocation
    (invocations are numbered from 0).
  * `Math.random()` is modelled as a stream `rand : Nat → ℚ` of draws,
    one per inter-attempt delay; faithfulness hypotheses state
    `0 ≤ rand i < 1` where needed.
  * Durations of `setTimeout` sleeps are rationals (JS numbers used by the
    delay arithmetic here are exact: products of the policy constants and
    the random draw).
  * Promise-based control flow is modelled by explicit outcome values:
    a wrapped call either throws synchronously, resolves, or rejects.
-/

/-- Embedding of the `BaseError` interface of src/lib/types.ts:
an error optionally carrying a numeric `status` field.  `status = none`
models both a missing `status` field and a non-numeric one (the code
only tests `typeof error.status === 'number'`). -/
structure BErr where
  status : Option Int
  deriving DecidableEq, Repr

/-- Embedding of `defaultShouldRetry` from the retry module:
retry on HTTP 429 and 503; an error without a numeric status is retried. -/
def defaultShouldRetry (error : BErr) : Bool :=
  match error.status with
  | some s => s == 429 || s == 503
  | none => true

/-- Retry configuration after default resolution, embedding the local
constants of `executeWithRetry` (`attempts`, `delay`, `factor`,
`maxDelay`, `jitter`, `shouldRetry`).  The `logger` and `name` fields
only affect log output and are not modelled.  `attempts` is an `Int`
because the JS code decrements it below zero when `attempts ≤ 0`. -/
structure RetryConfig (E : Type) where
  attempts : Int
  delay : ℚ
  factor : ℚ
  maxDelay : ℚ
  jitter : Bool
  shouldRetry : E → Bool

/-- Observable trace of one `executeWithRetry` run: the final outcome,
the number of invocations of the thunk, and the list of inter-attempt
sleep durations actually passed to `setTimeout` (in order). -/
structure RetryTrace (E V : Type) where
  outcome : Except E V
  calls : Nat
  sleeps : List ℚ
  deriving Repr

/-- Embedding of the `while (true)` loop body of `executeWithRetry`.
`remaining` is the loop's `remaining` variable, `i` numbers the next
thunk invocation, `cd` is `currentDelay`.  `fuel` is a termination
bound; `executeWithRetry` supplies `(attempts - 1).toNat`, which is
enough fuel that the `fuel = 0` fallback is never reached (each loop
iteration that continues has decremented `remaining`, and the loop
re-raises as soon as `remaining - 1 ≤ 0`). -/
def retryLoop (thunk : Nat → Except E V) (pred : E → Bool) (jitter : Bool)
    (maxDelay factor : ℚ) (rand : Nat → ℚ) :
    Nat → Int → Nat → ℚ → RetryTrace E V
  | fuel, remaining, i, cd =>
    match thunk i with
    | Except.ok v => ⟨Except.ok v, 1, []⟩
    | Except.error e =>
      if pred e = false then ⟨Except.error e, 1, []⟩
      else if remaining - 1 ≤ 0 then ⟨Except.error e, 1, []⟩
      else
        match fuel with
        | 0 => ⟨Except.error e, 1, []⟩
        | Nat.succ fuel2 =>
          let d : ℚ := if jitter then cd * (1/2 + rand i) else cd
          let rest := retryLoop thunk pred jitter maxDelay factor rand
            fuel2 (remaining - 1) (i + 1) (cd * factor)
          ⟨rest.outcome, rest.calls + 1, min d maxDelay :: rest.sleeps⟩

/-- Embedding of `executeWithRetry` applied to an already-resolved
configuration: runs the retry loop from attempt 0 with
`currentDelay = cfg.delay` and `remaining = cfg.attempts`. -/
def executeWithRetry (cfg : RetryConfig E) (thunk : Nat → Except E V)
    (rand : Nat → ℚ) : RetryTrace E V :=
  retryLoop thunk cfg.shouldRetry cfg.jitter cfg.maxDelay cfg.factor rand
    (cfg.attempts - 1).toNat cfg.attempts 0 cfg.delay

/-- Configuration with the library defaults of `DEFAULT_RETRY` and the
default predicate (attempts 3, delay 100, factor 2, maxDelay 30000,
jitter on). -/
def defaultConfig : RetryConfig BErr :=
  ⟨3, 100, 2, 30000, true, defaultShouldRetry⟩

example :
    (executeWithRetry (V := Int) defaultConfig
      (fun _ => Except.error ⟨some 503⟩) (fun _ => 0)).calls = 3 := by
  decide

example :
    (executeWithRetry (V := Int) defaultConfig
      (fun _ => Except.error ⟨some 503⟩) (fun _ => 0)).sleeps = [50, 100] := by
  simp [executeWithRetry, retryLoop, defaultConfig, defaultShouldRetry]
  norm_num

example :
    (executeWithRetry (V := Int) defaultConfig
      (fun _ => Except.error ⟨some 401⟩) (fun _ => 0)).calls = 1 := by
  decide

/-- Characterization of the retry loop on a thunk whose every invocation
fails with an error the predicate accepts: with `remaining = n + 1` and
fuel `n`, the loop makes `n + 1` calls, sleeps `n` times, and re-raises
the error of the last call. -/
theorem retryLoop_allFail (thunk : Nat → Except E V) (pred : E → Bool)
    (jitter : Bool) (maxDelay factor : ℚ) (rand : Nat → ℚ) (e : Nat → E)
    (hthunk : ∀ j, thunk j = Except.error (e j))
    (hpred : ∀ j, pred (e j) = true) :
    ∀ (n i : Nat) (cd : ℚ),
      (retryLoop thunk pred jitter maxDelay factor rand n ((n : Int) + 1) i cd).outcome
          = Except.error (e (i + n)) ∧
      (retryLoop thunk pred jitter maxDelay factor rand n ((n : Int) + 1) i cd).calls
          = n + 1 ∧
      (retryLoop thunk pred jitter maxDelay factor rand n ((n : Int) + 1) i cd).sleeps.length
          = n := by
  intro n
  induction n with
  | zero =>
    intro i cd
    rw [retryLoop]
    simp [hthunk i, hpred i]
  | succ n ih =>
    intro i cd
    have harg : ((n : Int) + 1 + 1) - 1 = (n : Int) + 1 := by omega
    have hrem2 : ¬ ((n : Int) + 1 ≤ 0) := by omega
    have hih := ih (i + 1) (cd * factor)
    have hx : i + 1 + n = i + (n + 1) := by omega
    rw [retryLoop]
    simp only [hthunk i, hpred i, Nat.cast_succ, harg, Bool.true_eq_false,
      if_false, if_neg hrem2, hih.1, hih.2.1, hih.2.2, hx, List.length_cons]
    exact ⟨trivial, trivial, trivial⟩

/-- C1: for every retry policy with `attempts = N` (`N ≥ 1`) and every
thunk whose every invocation fails with an error the retry predicate
accepts, `executeWithRetry` invokes the thunk exactly `N` times, sleeps
exactly `N - 1` inter-attempt delays, and propagates the error raised by
the `N`-th attempt (attempt index `N - 1` counting from 0); with
`attempts = 1` no retry and no sleep occurs. -/
theorem c1_retry_exhaustion (cfg : RetryConfig E) (thunk : Nat → Except E V)
    (rand : Nat → ℚ) (e : Nat → E) (N : Nat) (hN : 1 ≤ N)
    (hA : cfg.attempts = (N : Int))
    (hthunk : ∀ j, thunk j = Except.error (e j))
    (hpred : ∀ j, cfg.shouldRetry (e j) = true) :
    (executeWithRetry cfg thunk rand).calls = N ∧
    (executeWithRetry cfg thunk rand).sleeps.length = N - 1 ∧
    (executeWithRetry cfg thunk rand).outcome = Except.error (e (N - 1)) := by
  obtain ⟨n, rfl⟩ : ∃ n, N = n + 1 := ⟨N - 1, by omega⟩
  have hfuel : (cfg.attempts - 1).toNat = n := by rw [hA]; omega
  have hrem : cfg.attempts = (n : Int) + 1 := by rw [hA]; push_cast; ring
  have key := retryLoop_allFail thunk cfg.shouldRetry cfg.jitter cfg.maxDelay
    cfg.factor rand e hthunk hpred n 0 cfg.delay
  unfold executeWithRetry
  rw [hfuel, hrem]
  simp only [Nat.add_sub_cancel, Nat.zero_add] at key ⊢
  exact ⟨key.2.1, key.2.2, key.1⟩

/-- Witness for `c1_retry_exhaustion` at the default configuration
(`attempts = 3`) with a thunk always failing with status 503 and a
zero random stream: three calls, two sleeps, and the third attempt's
error propagated. -/
theorem c1_retry_exhaustion_witness :
    (executeWithRetry (V := Int) defaultConfig
        (fun _ => Except.error ⟨some 503⟩) (fun _ => 0)).calls = 3 ∧
    (executeWithRetry (V := Int) defaultConfig
        (fun _ => Except.error ⟨some 503⟩) (fun _ => 0)).sleeps.length = 3 - 1 ∧
    (executeWithRetry (V := Int) defaultConfig
        (fun _ => Except.error ⟨some 503⟩) (fun _ => 0)).outcome
      = Except.error ((fun _ => (⟨some 503⟩ : BErr)) (3 - 1)) :=
  c1_retry_exhaustion defaultConfig (fun _ => Except.error ⟨some 503⟩)
    (fun _ => 0) (fun _ => (⟨some 503⟩ : BErr)) 3
    (by decide) (by decide) (fun j => rfl) (fun j => rfl)

/-- Characterization of the sleep durations produced by the retry loop
with jitter enabled: the `j`-th sleep of a run whose loop entered with
`currentDelay = cd` and attempt index `i` is
`min (cd * factor ^ j * (1/2 + rand (i + j))) maxDelay`. -/
theorem retryLoop_sleeps_get (thunk : Nat → Except E V) (pred : E → Bool)
    (maxDelay factor : ℚ) (rand : Nat → ℚ) :
    ∀ (fuel : Nat) (remaining : Int) (i : Nat) (cd : ℚ) (j : Nat) (d : ℚ),
      (retryLoop thunk pred true maxDelay factor rand
          fuel remaining i cd).sleeps.get? j = some d →
      d = min (cd * factor ^ j * (1/2 + rand (i + j))) maxDelay := by
  intro fuel
  induction fuel with
  | zero =>
    intro remaining i cd j d h
    rw [retryLoop] at h
    cases hti : thunk i with
    | ok v => simp only [hti] at h; simp at h
    | error e =>
      simp only [hti] at h
      cases hpe : pred e with
      | false =>
        rw [hpe, if_pos rfl] at h
        simp at h
      | true =>
        rw [hpe, if_neg (by simp)] at h
        by_cases hrem : remaining - 1 ≤ 0
        · rw [if_pos hrem] at h
          simp at h
        · rw [if_neg hrem] at h
          simp at h
  | succ fuel ih =>
    intro remaining i cd j d h
    rw [retryLoop] at h
    cases hti : thunk i with
    | ok v => simp only [hti] at h; simp at h
    | error e =>
      simp only [hti] at h
      cases hpe : pred e with
      | false =>
        rw [hpe, if_pos rfl] at h
        simp at h
      | true =>
        rw [hpe, if_neg (by simp)] at h
        by_cases hrem : remaining - 1 ≤ 0
        · rw [if_pos hrem] at h
          simp at h
        · rw [if_neg hrem, if_pos trivial] at h
          cases j with
          | zero =>
            simp only [List.get?_cons_zero, Option.some_inj] at h
            rw [pow_zero, mul_one, Nat.add_zero]
            exact h.symm
          | succ j =>
            simp only [List.get?_cons_succ] at h
            have hrec := ih (remaining - 1) (i + 1) (cd * factor) j d h
            rw [hrec]
            have hidx : i + 1 + j = i + (j + 1) := by omega
            have hcd : cd * factor * factor ^ j = cd * factor ^ (j + 1) := by
              ring
            rw [hidx, hcd]

/-- C6 (amended): with jitter enabled, a nonnegative initial delay and
factor, and random draws in `[0, 1)`, every sleep duration observed in a
run of `executeWithRetry` is at most `maxDelay` and at least
`min (currentDelayBeforeJitter / 2) maxDelay`, where
`currentDelayBeforeJitter = delay * factor ^ j` for the `j`-th sleep.
The lower bound is attained (not strict): a random draw of 0 gives a
sleep of exactly half the un-clamped base delay. -/
theorem c6_jitter_bounds (cfg : RetryConfig E) (thunk : Nat → Except E V)
    (rand : Nat → ℚ) (hj : cfg.jitter = true)
    (hrand : ∀ i, 0 ≤ rand i ∧ rand i < 1)
    (hdelay : 0 ≤ cfg.delay) (hfactor : 0 ≤ cfg.factor) :
    ∀ (j : Nat) (d : ℚ),
      (executeWithRetry cfg thunk rand).sleeps.get? j = some d →
      min (cfg.delay * cfg.factor ^ j * (1/2)) cfg.maxDelay ≤ d ∧
      d ≤ cfg.maxDelay := by
  intro j d h
  unfold executeWithRetry at h
  rw [hj] at h
  have hchar := retryLoop_sleeps_get thunk cfg.shouldRetry cfg.maxDelay
    cfg.factor rand (cfg.attempts - 1).toNat cfg.attempts 0 cfg.delay j d h
  subst hchar
  constructor
  · apply min_le_min _ le_rfl
    apply mul_le_mul_of_nonneg_left
    · linarith [(hrand (0 + j)).1]
    · exact mul_nonneg hdelay (pow_nonneg hfactor j)
  · exact min_le_right _ _

/-- Witness for `c6_jitter_bounds` at the default configuration with an
always-failing retryable thunk and the constant random stream 1/2: the
first sleep is 100, which lies between `min 50 30000 = 50` and 30000. -/
theorem c6_jitter_bounds_witness :
    min (defaultConfig.delay * defaultConfig.factor ^ 0 * (1/2))
        defaultConfig.maxDelay ≤ 100 ∧ (100 : ℚ) ≤ defaultConfig.maxDelay :=
  c6_jitter_bounds defaultConfig
    (fun _ => (Except.error ⟨some 503⟩ : Except BErr Int))
    (fun _ => 1/2) rfl (fun _ => by norm_num)
    (by norm_num [defaultConfig]) (by norm_num [defaultConfig]) 0 100
    (by simp [executeWithRetry, retryLoop, defaultConfig, defaultShouldRetry]
        norm_num)

/-- C6 counterexample: the claim asserts every observed delay is
strictly greater than half the un-clamped base delay, but a random draw
of 0 (a legal value of `Math.random()`) makes the first sleep exactly
`delay * (1/2) = 50` at the default configuration, which is not
strictly greater than half of the base delay 100. -/
theorem c6_counterexample :
    (executeWithRetry (V := Int) defaultConfig
        (fun _ => Except.error ⟨some 503⟩) (fun _ => 0)).sleeps.head?
      = some ((1/2) * defaultConfig.delay) ∧
    ¬ ((1/2) * defaultConfig.delay > (1/2) * defaultConfig.delay) := by
  constructor
  · simp [executeWithRetry, retryLoop, defaultConfig, defaultShouldRetry]
    norm_num
  · exact lt_irrefl _

/-- Behaviour of one hook callable of `WrapFunctionOptions` /
`WrapClassOptions`: the hook may be absent (`undefined` option), return
normally (or return a promise that fulfils — the wrapper never awaits
hook return values, so these are indistinguishable), throw
synchronously, or return a promise that rejects with `e`. -/
inductive HookBeh (E : Type) where
  | absent
  | ok
  | throwSync (e : E)
  | rejectAsync (e : E)
  deriving DecidableEq, Repr

/-- The four lifecycle hooks of `BaseWrapperOptions`
(`before`, `after`, `onError`, `finally`). -/
structure Hooks (E : Type) where
  beforeHook : HookBeh E
  afterHook : HookBeh E
  onErrorHook : HookBeh E
  finallyHook : HookBeh E
  deriving DecidableEq, Repr

/-- Observable state of the mutable `HookContext` of one invocation.
The `name` and `startTime` fields are constant over a call and are not
modelled; `durationSet` records whether `context.duration` has been
assigned, `err` is the value of `context.error`. -/
structure Ctx (E : Type) where
  durationSet : Bool
  err : Option E
  deriving DecidableEq, Repr

/-- Events of one wrapped invocation, in execution order.  Hook events
carry a snapshot of the `HookContext` at the moment the hook callable is
invoked. -/
inductive Ev (E : Type) where
  | beforeEv (c : Ctx E)
  | attemptEv
  | sleepEv
  | afterEv (c : Ctx E)
  | onErrorEv (c : Ctx E)
  | finallyEv (c : Ctx E)
  deriving DecidableEq, Repr

/-- How the operation returned by the wrapper settles for the caller:
a synchronous throw (no promise is ever produced), a fulfilled promise,
or a rejected promise. -/
inductive WOutcome (E V : Type) where
  | syncThrow (e : E)
  | resolved (v : V)
  | rejected (e : E)
  deriving DecidableEq, Repr

/-- Observable trace of one invocation of the callable produced by
`wrapFunction` (the method wrappers installed by `wrapClass` share this
lifecycle verbatim): outcome, thunk invocation count, sleeps, the event
sequence, and the final `HookContext` state. -/
structure WrapRun (E V : Type) where
  outcome : WOutcome E V
  calls : Nat
  sleeps : List ℚ
  events : List (Ev E)
  finalCtx : Ctx E

/-- True exactly for a hook that throws synchronously. -/
def HookBeh.throwsSync : HookBeh E → Bool
  | HookBeh.throwSync _ => true
  | _ => false

/-- True when the wrapped call does not fulfil: a synchronous throw or a
rejected promise. -/
def WOutcome.isFailure : WOutcome E V → Bool
  | WOutcome.resolved _ => false
  | _ => true

/-- The event emitted for invoking a hook: none when the hook is absent
(the optional-chaining call `hook?.()` does nothing), otherwise the
given event. -/
def hookEvOf (beh : HookBeh E) (ev : Ev E) : List (Ev E) :=
  match beh with
  | HookBeh.absent => []
  | _ => [ev]

/-- Embedding of the `handleError` closure of `wrapFunction` (the
`wrapClass` method wrappers define the identical closure): it sets
`context.error` and `context.duration`, invokes the `onError` hook with
the mutated context (without awaiting it), and re-throws — the original
error if the hook did not itself throw synchronously, else the hook's
own error.  Returns the mutated context, the propagated error, and the
emitted events. -/
def handleErrorModel (hooks : Hooks E) (e : E) : Ctx E × E × List (Ev E) :=
  let c1 : Ctx E := ⟨true, some e⟩
  match hooks.onErrorHook with
  | HookBeh.absent => (c1, e, [])
  | HookBeh.throwSync e2 => (c1, e2, [Ev.onErrorEv c1])
  | _ => (c1, e, [Ev.onErrorEv c1])

/-- Embedding of the `.finally(() => { options.finally?.(name, context) })`
step: the callback's return value is discarded (an asynchronous finally
hook is not awaited), but a synchronous throw inside it replaces the
settled outcome with a rejection carrying the thrown error. -/
def finallyStep (hooks : Hooks E) (c : Ctx E) (base : WOutcome E V) :
    List (Ev E) × WOutcome E V :=
  match hooks.finallyHook with
  | HookBeh.absent => ([], base)
  | HookBeh.throwSync e3 => ([Ev.finallyEv c], WOutcome.rejected e3)
  | _ => ([Ev.finallyEv c], base)

/-- The attempt/sleep event sequence of a retry-engine run with the
given call count and sleep list: the loop alternates one attempt with
one sleep, ending with the final attempt. -/
def attemptSleepEvents : Nat → List ℚ → List (Ev E)
  | 0, _ => []
  | Nat.succ _, [] => [Ev.attemptEv]
  | Nat.succ n, _ :: ds => Ev.attemptEv :: Ev.sleepEv :: attemptSleepEvents n ds

/-- Embedding of one invocation of the callable produced by
`wrapFunction` (and of a `wrapClass`-wrapped method).  Mirrors the
control flow of src/lib/logger.ts lines 31-80:

  * a fresh context is created with no duration and no error;
  * the `before` hook is invoked without awaiting; if it throws
    synchronously, the outer `catch` runs `handleError`, whose re-throw
    escapes the wrapper synchronously (the `Promise.reject(...)` around
    `handleError` is never reached because `handleError` always throws) —
    no retry attempt and no `finally` hook run in that case;
  * otherwise the retry engine runs the thunk; on success the context
    duration is set, the `after` hook is invoked (not awaited; its
    synchronous throw diverts into `handleError` via `.catch`), and on
    failure `handleError` runs; finally the `.finally` callback invokes
    the `finally` hook. -/
def runWrapped (hooks : Hooks E) (cfg : RetryConfig E)
    (thunk : Nat → Except E V) (rand : Nat → ℚ) : WrapRun E V :=
  let c0 : Ctx E := ⟨false, none⟩
  match hooks.beforeHook with
  | HookBeh.throwSync e =>
    let r := handleErrorModel hooks e
    ⟨WOutcome.syncThrow r.2.1, 0, [], Ev.beforeEv c0 :: r.2.2, r.1⟩
  | _ =>
    let beforeEvs := hookEvOf hooks.beforeHook (Ev.beforeEv c0)
    let tr := executeWithRetry cfg thunk rand
    let attEvs : List (Ev E) := attemptSleepEvents tr.calls tr.sleeps
    match tr.outcome with
    | Except.ok v =>
      let c1 : Ctx E := ⟨true, none⟩
      match hooks.afterHook with
      | HookBeh.throwSync e =>
        let r := handleErrorModel hooks e
        let fin := finallyStep hooks r.1 (WOutcome.rejected r.2.1)
        ⟨fin.2, tr.calls, tr.sleeps,
          beforeEvs ++ attEvs ++ [Ev.afterEv c1] ++ r.2.2 ++ fin.1, r.1⟩
      | abeh =>
        let afterEvs := hookEvOf abeh (Ev.afterEv c1)
        let fin := finallyStep hooks c1 (WOutcome.resolved v)
        ⟨fin.2, tr.calls, tr.sleeps,
          beforeEvs ++ attEvs ++ afterEvs ++ fin.1, c1⟩
    | Except.error e =>
      let r := handleErrorModel hooks e
      let fin := finallyStep hooks r.1 (WOutcome.rejected r.2.1)
      ⟨fin.2, tr.calls, tr.sleeps,
        beforeEvs ++ attEvs ++ r.2.2 ++ fin.1, r.1⟩

/-- If the first attempt fails with an error the predicate rejects, the
retry engine stops at once: one call, no sleep, the same error
propagated. -/
theorem executeWithRetry_nonretryable (cfg : RetryConfig E)
    (thunk : Nat → Except E V) (rand : Nat → ℚ) (e : E)
    (h0 : thunk 0 = Except.error e) (hp : cfg.shouldRetry e = false) :
    executeWithRetry cfg thunk rand = ⟨Except.error e, 1, []⟩ := by
  unfold executeWithRetry
  rw [retryLoop]
  simp [h0, hp]

/-- C2: for every error the retry predicate rejects, the failure is
propagated on its first occurrence: the thunk is invoked exactly once
and the error value the caller observes is the very error the thunk
raised (provided the `onError` and `finally` hooks do not themselves
throw synchronously, which would replace it, and the `before` hook did
not fail before the call started). -/
theorem c2_nonretryable_single_attempt (hooks : Hooks E) (cfg : RetryConfig E)
    (thunk : Nat → Except E V) (rand : Nat → ℚ) (e : E)
    (h0 : thunk 0 = Except.error e) (hp : cfg.shouldRetry e = false)
    (hb : hooks.beforeHook.throwsSync = false)
    (ho : hooks.onErrorHook.throwsSync = false)
    (hf : hooks.finallyHook.throwsSync = false) :
    (runWrapped hooks cfg thunk rand).calls = 1 ∧
    (runWrapped hooks cfg thunk rand).outcome = WOutcome.rejected e := by
  obtain ⟨b, a, o, f⟩ := hooks
  have hretry := executeWithRetry_nonretryable cfg thunk rand e h0 hp
  cases b <;> cases o <;> cases f <;>
    simp_all [runWrapped, handleErrorModel, finallyStep, hookEvOf,
      HookBeh.throwsSync]

/-- Witness for `c2_nonretryable_single_attempt`: with all hooks benign,
the default policy, a thunk failing with status 401 (rejected by the
default predicate), there is one call and the caller observes the
status-401 error itself. -/
theorem c2_nonretryable_single_attempt_witness :
    (runWrapped (V := Int) ⟨HookBeh.ok, HookBeh.ok, HookBeh.ok, HookBeh.ok⟩
        defaultConfig (fun _ => Except.error ⟨some 401⟩)
        (fun _ => 0)).calls = 1 ∧
    (runWrapped (V := Int) ⟨HookBeh.ok, HookBeh.ok, HookBeh.ok, HookBeh.ok⟩
        defaultConfig (fun _ => Except.error ⟨some 401⟩)
        (fun _ => 0)).outcome = WOutcome.rejected ⟨some 401⟩ :=
  c2_nonretryable_single_attempt
    ⟨HookBeh.ok, HookBeh.ok, HookBeh.ok, HookBeh.ok⟩ defaultConfig
    (fun _ => Except.error ⟨some 401⟩) (fun _ => 0) ⟨some 401⟩
    rfl rfl rfl rfl rfl

/-- True exactly for a finally-hook invocation event. -/
def Ev.isFinallyEv : Ev E → Bool
  | Ev.finallyEv _ => true
  | _ => false

/-- The `handleError` path never invokes the finally hook. -/
theorem countP_handleError_finally (hooks : Hooks E) (e : E) :
    (handleErrorModel hooks e).2.2.countP Ev.isFinallyEv = 0 := by
  cases ho : hooks.onErrorHook <;>
    simp [handleErrorModel, ho, Ev.isFinallyEv]

/-- The `.finally` step invokes the finally hook exactly once whenever
the hook is supplied. -/
theorem countP_finallyStep (hooks : Hooks E) (c : Ctx E)
    (base : WOutcome E V) (hfin : hooks.finallyHook ≠ HookBeh.absent) :
    (finallyStep hooks c base).1.countP Ev.isFinallyEv = 1 := by
  cases hf : hooks.finallyHook <;>
    simp_all [finallyStep, Ev.isFinallyEv]

/-- Attempt/sleep events contain no finally-hook invocation. -/
theorem countP_attemptSleep_finally :
    ∀ (n : Nat) (ds : List ℚ),
      (attemptSleepEvents (E := E) n ds).countP Ev.isFinallyEv = 0 := by
  intro n
  induction n with
  | zero => intro ds; simp [attemptSleepEvents]
  | succ n ih =>
    intro ds
    cases ds with
    | nil => simp [attemptSleepEvents, Ev.isFinallyEv]
    | cons d ds => simp [attemptSleepEvents, Ev.isFinallyEv, ih ds]

/-- Invoking a non-finally hook emits no finally-hook event. -/
theorem countP_hookEvOf_finally (beh : HookBeh E) (ev : Ev E)
    (hev : Ev.isFinallyEv ev = false) :
    (hookEvOf beh ev).countP Ev.isFinallyEv = 0 := by
  cases beh <;> simp [hookEvOf, hev]

/-- C4 counterexample: the claim asserts the finally hook runs exactly
once even when the before hook fails, but with a synchronously-throwing
before hook (all other hooks supplied and benign) the finally hook is
never invoked: the synchronous re-throw of `handleError` escapes the
wrapper before the promise chain carrying `.finally` is built. -/
theorem c4_counterexample :
    (runWrapped (V := Int)
        ⟨HookBeh.throwSync ⟨none⟩, HookBeh.ok, HookBeh.ok, HookBeh.ok⟩
        defaultConfig (fun _ => Except.ok 0)
        (fun _ => 0)).events.countP Ev.isFinallyEv = 0 := by
  decide

/-- C4 (amended): when the finally hook is supplied, it is invoked
exactly once per wrapped invocation — after the success path or the
failure path of the attempt loop completes and before the returned
operation settles — unless the before hook itself threw synchronously,
in which case the finally hook is not invoked at all. -/
theorem c4_finally_exactly_once (hooks : Hooks E) (cfg : RetryConfig E)
    (thunk : Nat → Except E V) (rand : Nat → ℚ)
    (hfin : hooks.finallyHook ≠ HookBeh.absent) :
    (runWrapped hooks cfg thunk rand).events.countP Ev.isFinallyEv
      = if hooks.beforeHook.throwsSync then 0 else 1 := by
  obtain ⟨b, a, o, f⟩ := hooks
  cases b with
  | throwSync e =>
    have h1 := countP_handleError_finally ⟨HookBeh.throwSync e, a, o, f⟩ e
    simp [runWrapped, HookBeh.throwsSync, List.countP_cons, h1, Ev.isFinallyEv]
  | absent =>
    cases htr : (executeWithRetry cfg thunk rand).outcome with
    | ok v =>
      cases a <;>
        simp_all [runWrapped, HookBeh.throwsSync, List.countP_append,
          countP_handleError_finally, countP_finallyStep,
          countP_attemptSleep_finally, countP_hookEvOf_finally,
          hookEvOf, Ev.isFinallyEv]
    | error e =>
      simp_all [runWrapped, HookBeh.throwsSync, List.countP_append,
        countP_handleError_finally, countP_finallyStep,
        countP_attemptSleep_finally, countP_hookEvOf_finally,
        hookEvOf, Ev.isFinallyEv]
  | ok =>
    cases htr : (executeWithRetry cfg thunk rand).outcome with
    | ok v =>
      cases a <;>
        simp_all [runWrapped, HookBeh.throwsSync, List.countP_append,
          countP_handleError_finally, countP_finallyStep,
          countP_attemptSleep_finally, countP_hookEvOf_finally,
          hookEvOf, Ev.isFinallyEv]
    | error e =>
      simp_all [runWrapped, HookBeh.throwsSync, List.countP_append,
        countP_handleError_finally, countP_finallyStep,
        countP_attemptSleep_finally, countP_hookEvOf_finally,
        hookEvOf, Ev.isFinallyEv]
  | rejectAsync e0 =>
    cases htr : (executeWithRetry cfg thunk rand).outcome with
    | ok v =>
      cases a <;>
        simp_all [runWrapped, HookBeh.throwsSync, List.countP_append,
          countP_handleError_finally, countP_finallyStep,
          countP_attemptSleep_finally, countP_hookEvOf_finally,
          hookEvOf, Ev.isFinallyEv]
    | error e =>
      simp_all [runWrapped, HookBeh.throwsSync, List.countP_append,
        countP_handleError_finally, countP_finallyStep,
        countP_attemptSleep_finally, countP_hookEvOf_finally,
        hookEvOf, Ev.isFinallyEv]

/-- Witness for `c4_finally_exactly_once`: with all hooks supplied and
benign and a successful thunk, the finally hook event occurs exactly
once. -/
theorem c4_finally_exactly_once_witness :
    (runWrapped (V := Int) ⟨HookBeh.ok, HookBeh.ok, HookBeh.ok, HookBeh.ok⟩
        defaultConfig (fun _ => Except.ok 0)
        (fun _ => 0)).events.countP Ev.isFinallyEv
      = if (Hooks.mk (E := BErr) HookBeh.ok HookBeh.ok HookBeh.ok
            HookBeh.ok).beforeHook.throwsSync then 0 else 1 :=
  c4_finally_exactly_once
    ⟨HookBeh.ok, HookBeh.ok, HookBeh.ok, HookBeh.ok⟩ defaultConfig
    (fun _ => Except.ok 0) (fun _ => 0) (by decide)

/-- C7: evaluation of the code at the failing input.  With a before
hook that throws synchronously, the callable returned by `wrapFunction`
throws synchronously instead of returning a rejected promise: inside the
outer `catch`, `handleError` re-throws before the expression
`Promise.reject(handleError(error))` can construct a promise, so that
`return` is dead code and the exception escapes the wrapper
synchronously. -/
theorem c7_sync_throw_on_before_failure :
    (runWrapped (V := Int)
        ⟨HookBeh.throwSync ⟨none⟩, HookBeh.ok, HookBeh.ok, HookBeh.ok⟩
        defaultConfig (fun _ => Except.ok 0) (fun _ => 0)).outcome
      = WOutcome.syncThrow ⟨none⟩ := by
  decide

/-- Lifecycle phase of an event: 0 for the before hook, 1 for attempt
loop activity, 2 for the after / onError hooks, 3 for the finally
hook. -/
def Ev.phase : Ev E → Nat
  | Ev.beforeEv _ => 0
  | Ev.attemptEv => 1
  | Ev.sleepEv => 1
  | Ev.afterEv _ => 2
  | Ev.onErrorEv _ => 2
  | Ev.finallyEv _ => 3

/-- A list of events split into four segments of increasing phase is
pairwise ordered by phase. -/
theorem pairwise_phase_append (l0 l1 l2 l3 : List (Ev E))
    (h0 : ∀ x ∈ l0, Ev.phase x = 0) (h1 : ∀ x ∈ l1, Ev.phase x = 1)
    (h2 : ∀ x ∈ l2, Ev.phase x = 2) (h3 : ∀ x ∈ l3, Ev.phase x = 3) :
    List.Pairwise (fun x y => Ev.phase x ≤ Ev.phase y)
      (l0 ++ l1 ++ l2 ++ l3) := by
  have pw : ∀ (l : List (Ev E)) (c : Nat), (∀ x ∈ l, Ev.phase x = c) →
      List.Pairwise (fun x y => Ev.phase x ≤ Ev.phase y) l := by
    intro l c
    induction l with
    | nil => intro _; exact List.Pairwise.nil
    | cons x l ih =>
      intro hc
      rw [List.pairwise_cons]
      refine ⟨fun b hb2 => ?_, ih (fun y hy => hc y (List.mem_cons_of_mem x hy))⟩
      rw [hc x (List.mem_cons_self x l), hc b (List.mem_cons_of_mem x hb2)]
  rw [List.pairwise_append, List.pairwise_append, List.pairwise_append]
  refine ⟨⟨⟨pw l0 0 h0, pw l1 1 h1, ?_⟩, pw l2 2 h2, ?_⟩, pw l3 3 h3, ?_⟩
  · intro a ha b hb3
    rw [h0 a ha, h1 b hb3]
    omega
  · intro a ha b hb3
    rcases List.mem_append.mp ha with h | h
    · rw [h0 a h, h2 b hb3]
      omega
    · rw [h1 a h, h2 b hb3]
      omega
  · intro a ha b hb3
    rcases List.mem_append.mp ha with h | h
    · rcases List.mem_append.mp h with h4 | h4
      · rw [h0 a h4, h3 b hb3]
        omega
      · rw [h1 a h4, h3 b hb3]
        omega
    · rw [h2 a h, h3 b hb3]
      omega

/-- Invoking the before hook emits only phase-0 events. -/
theorem phase_hookEvOf_before (beh : HookBeh E) (c : Ctx E) :
    ∀ x ∈ hookEvOf beh (Ev.beforeEv c), Ev.phase x = 0 := by
  cases beh <;> simp [hookEvOf, Ev.phase]

/-- Invoking the after hook emits only phase-2 events. -/
theorem phase_hookEvOf_after (beh : HookBeh E) (c : Ctx E) :
    ∀ x ∈ hookEvOf beh (Ev.afterEv c), Ev.phase x = 2 := by
  cases beh <;> simp [hookEvOf, Ev.phase]

/-- Attempt-loop activity consists of phase-1 events only. -/
theorem phase_attemptSleep :
    ∀ (n : Nat) (ds : List ℚ), ∀ x ∈ attemptSleepEvents (E := E) n ds,
      Ev.phase x = 1 := by
  intro n
  induction n with
  | zero => intro ds; simp [attemptSleepEvents]
  | succ n ih =>
    intro ds
    cases ds with
    | nil => simp [attemptSleepEvents, Ev.phase]
    | cons d ds =>
      simp only [attemptSleepEvents, List.mem_cons]
      rintro x (rfl | rfl | hx)
      · rfl
      · rfl
      · exact ih ds x hx

/-- The `handleError` path emits only phase-2 events. -/
theorem phase_handleError (hooks : Hooks E) (e : E) :
    ∀ x ∈ (handleErrorModel hooks e).2.2, Ev.phase x = 2 := by
  cases ho : hooks.onErrorHook <;> simp [handleErrorModel, ho, Ev.phase]

/-- The `.finally` step emits only phase-3 events. -/
theorem phase_finallyStep (hooks : Hooks E) (c : Ctx E)
    (base : WOutcome E V) :
    ∀ x ∈ (finallyStep hooks c base).1, Ev.phase x = 3 := by
  cases hf : hooks.finallyHook <;> simp [finallyStep, hf, Ev.phase]

/-- A split of an event list into four segments of increasing phase
yields the pairwise phase ordering. -/
theorem pairwise_phase_parts (evs l0 l1 l2 l3 : List (Ev E))
    (hsplit : evs = l0 ++ l1 ++ l2 ++ l3)
    (h0 : ∀ x ∈ l0, Ev.phase x = 0) (h1 : ∀ x ∈ l1, Ev.phase x = 1)
    (h2 : ∀ x ∈ l2, Ev.phase x = 2) (h3 : ∀ x ∈ l3, Ev.phase x = 3) :
    List.Pairwise (fun x y => Ev.phase x ≤ Ev.phase y) evs := by
  subst hsplit
  exact pairwise_phase_append l0 l1 l2 l3 h0 h1 h2 h3

/-- The after event together with the `handleError` events are all of
phase 2. -/
theorem phase_after_and_handleError (hooks : Hooks E) (c : Ctx E) (e : E) :
    ∀ x ∈ Ev.afterEv c :: (handleErrorModel hooks e).2.2,
      Ev.phase x = 2 := by
  intro x hx
  rcases List.mem_cons.mp hx with h | h
  · subst h
    rfl
  · exact phase_handleError hooks e x h

/-- When the underlying retry run fails and the before hook did not
throw synchronously, the wrapped call settles with the outcome of the
finally step applied to the rejection produced by `handleError`, and
the final context is the one `handleError` produced. -/
theorem runWrapped_error_case (hooks : Hooks E) (cfg : RetryConfig E)
    (thunk : Nat → Except E V) (rand : Nat → ℚ) (e : E)
    (hb : hooks.beforeHook.throwsSync = false)
    (htr : (executeWithRetry cfg thunk rand).outcome = Except.error e) :
    (runWrapped hooks cfg thunk rand).outcome
        = (finallyStep hooks (handleErrorModel hooks e).1
            (WOutcome.rejected (handleErrorModel hooks e).2.1)).2 ∧
    (runWrapped hooks cfg thunk rand).finalCtx
        = (handleErrorModel hooks e).1 ∧
    (runWrapped hooks cfg thunk rand).calls
        = (executeWithRetry cfg thunk rand).calls := by
  cases hbv : hooks.beforeHook <;>
    simp_all [runWrapped, HookBeh.throwsSync]

/-- When the underlying retry run succeeds, the before hook did not
throw synchronously and the after hook does not throw synchronously,
the wrapped call settles with the finally step applied to the resolved
value, and the final context has a duration and no error. -/
theorem runWrapped_ok_case (hooks : Hooks E) (cfg : RetryConfig E)
    (thunk : Nat → Except E V) (rand : Nat → ℚ) (v : V)
    (hb : hooks.beforeHook.throwsSync = false)
    (ha : hooks.afterHook.throwsSync = false)
    (htr : (executeWithRetry cfg thunk rand).outcome = Except.ok v) :
    (runWrapped hooks cfg thunk rand).outcome
        = (finallyStep hooks ⟨true, none⟩ (WOutcome.resolved v)).2 ∧
    (runWrapped hooks cfg thunk rand).finalCtx = ⟨true, none⟩ := by
  cases hbv : hooks.beforeHook <;> cases hav : hooks.afterHook <;>
    simp_all [runWrapped, HookBeh.throwsSync]

/-- When the underlying retry run succeeds but the after hook throws
synchronously (and the before hook did not), the wrapped call settles
with the finally step applied to the rejection produced by
`handleError` on the after hook's error. -/
theorem runWrapped_ok_afterThrow_case (hooks : Hooks E)
    (cfg : RetryConfig E) (thunk : Nat → Except E V) (rand : Nat → ℚ)
    (v : V) (e : E)
    (hb : hooks.beforeHook.throwsSync = false)
    (ha : hooks.afterHook = HookBeh.throwSync e)
    (htr : (executeWithRetry cfg thunk rand).outcome = Except.ok v) :
    (runWrapped hooks cfg thunk rand).outcome
        = (finallyStep hooks (handleErrorModel hooks e).1
            (WOutcome.rejected (handleErrorModel hooks e).2.1)).2 ∧
    (runWrapped hooks cfg thunk rand).finalCtx
        = (handleErrorModel hooks e).1 := by
  cases hbv : hooks.beforeHook <;>
    simp_all [runWrapped, HookBeh.throwsSync]

/-- The finally step leaves a rejection a failure whatever the finally
hook does. -/
theorem finallyStep_rejected_isFailure (hooks : Hooks E) (c : Ctx E)
    (e : E) :
    ((finallyStep (V := V) hooks c (WOutcome.rejected e)).2).isFailure
      = true := by
  cases hf : hooks.finallyHook <;>
    simp [finallyStep, hf, WOutcome.isFailure]

/-- A finally hook that does not throw synchronously leaves the settled
outcome unchanged. -/
theorem finallyStep_preserves (hooks : Hooks E) (c : Ctx E)
    (base : WOutcome E V) (hf : hooks.finallyHook.throwsSync = false) :
    (finallyStep hooks c base).2 = base := by
  cases hfv : hooks.finallyHook <;>
    simp_all [finallyStep, HookBeh.throwsSync]

/-- A finally hook that throws synchronously turns any settled outcome
into a rejection with its own error. -/
theorem finallyStep_throw (hooks : Hooks E) (c : Ctx E)
    (base : WOutcome E V) (e3 : E)
    (hf : hooks.finallyHook = HookBeh.throwSync e3) :
    (finallyStep hooks c base).2 = WOutcome.rejected e3 := by
  simp [finallyStep, hf]

/-- C5 counterexample: the claim asserts that a failing hook callable —
including one that returns a rejecting promise — propagates as a failure
of the overall wrapped call.  But the wrapper never awaits hook return
values: with a before hook returning a rejecting promise and a
successful thunk, the wrapped call still resolves with the thunk's
value. -/
theorem c5_counterexample :
    (runWrapped (V := Int)
        ⟨HookBeh.rejectAsync ⟨none⟩, HookBeh.ok, HookBeh.ok, HookBeh.ok⟩
        defaultConfig (fun _ => Except.ok 7) (fun _ => 0)).outcome
      = WOutcome.resolved 7 := by
  decide

/-- A synchronously-throwing after hook makes the wrapped call fail
when the before hook did not already throw. -/
theorem runWrapped_afterThrow_isFailure (hooks : Hooks E)
    (cfg : RetryConfig E) (thunk : Nat → Except E V) (rand : Nat → ℚ)
    (e : E) (hb : hooks.beforeHook.throwsSync = false)
    (hav : hooks.afterHook = HookBeh.throwSync e) :
    (runWrapped hooks cfg thunk rand).outcome.isFailure = true := by
  cases htr : (executeWithRetry cfg thunk rand).outcome with
  | ok v =>
    rw [(runWrapped_ok_afterThrow_case hooks cfg thunk rand v e hb hav htr).1]
    exact finallyStep_rejected_isFailure hooks _ _
  | error e2 =>
    rw [(runWrapped_error_case hooks cfg thunk rand e2 hb htr).1]
    exact finallyStep_rejected_isFailure hooks _ _

/-- A synchronously-throwing finally hook makes the wrapped call fail
when the before hook did not already throw. -/
theorem runWrapped_finallyThrow_isFailure (hooks : Hooks E)
    (cfg : RetryConfig E) (thunk : Nat → Except E V) (rand : Nat → ℚ)
    (e3 : E) (hb : hooks.beforeHook.throwsSync = false)
    (hfv : hooks.finallyHook = HookBeh.throwSync e3) :
    (runWrapped hooks cfg thunk rand).outcome.isFailure = true := by
  cases htr : (executeWithRetry cfg thunk rand).outcome with
  | ok v =>
    cases hav : hooks.afterHook with
    | throwSync e =>
      rw [(runWrapped_ok_afterThrow_case hooks cfg thunk rand v e hb hav htr).1,
        finallyStep_throw hooks _ _ e3 hfv]
      rfl
    | absent =>
      rw [(runWrapped_ok_case hooks cfg thunk rand v hb
          (by rw [hav]; rfl) htr).1,
        finallyStep_throw hooks _ _ e3 hfv]
      rfl
    | ok =>
      rw [(runWrapped_ok_case hooks cfg thunk rand v hb
          (by rw [hav]; rfl) htr).1,
        finallyStep_throw hooks _ _ e3 hfv]
      rfl
    | rejectAsync e2 =>
      rw [(runWrapped_ok_case hooks cfg thunk rand v hb
          (by rw [hav]; rfl) htr).1,
        finallyStep_throw hooks _ _ e3 hfv]
      rfl
  | error e2 =>
    rw [(runWrapped_error_case hooks cfg thunk rand e2 hb htr).1,
      finallyStep_throw hooks _ _ e3 hfv]
    rfl

/-- C5 (amended): in every run, the lifecycle events of a wrapped
invocation are strictly ordered by phase — before hook, then the
attempt loop, then the after or onError hook, then the finally hook.
A hook that throws synchronously makes the overall wrapped call fail:
a throwing before, after or finally hook always yields a failed call,
and a throwing onError hook — invoked only on already-failing calls —
replaces the propagated error with its own; with no
synchronously-throwing hooks a successful retry run resolves with its
value.  Hook return values are never awaited, so an asynchronous hook
rejection does not propagate (see the counterexample). -/
theorem c5_hook_ordering (hooks : Hooks E) (cfg : RetryConfig E)
    (thunk : Nat → Except E V) (rand : Nat → ℚ) :
    List.Pairwise (fun x y => Ev.phase x ≤ Ev.phase y)
      (runWrapped hooks cfg thunk rand).events ∧
    (∀ e, hooks.beforeHook = HookBeh.throwSync e →
      (runWrapped hooks cfg thunk rand).outcome.isFailure = true) ∧
    (∀ e, hooks.afterHook = HookBeh.throwSync e →
      (runWrapped hooks cfg thunk rand).outcome.isFailure = true) ∧
    (∀ e3, hooks.finallyHook = HookBeh.throwSync e3 →
      (runWrapped hooks cfg thunk rand).outcome.isFailure = true) ∧
    (∀ e e2, hooks.beforeHook.throwsSync = false →
      hooks.onErrorHook = HookBeh.throwSync e2 →
      hooks.finallyHook.throwsSync = false →
      (executeWithRetry cfg thunk rand).outcome = Except.error e →
      (runWrapped hooks cfg thunk rand).outcome = WOutcome.rejected e2) ∧
    (∀ v, hooks.beforeHook.throwsSync = false →
      hooks.afterHook.throwsSync = false →
      hooks.finallyHook.throwsSync = false →
      (executeWithRetry cfg thunk rand).outcome = Except.ok v →
      (runWrapped hooks cfg thunk rand).outcome = WOutcome.resolved v) := by
  refine ⟨?_, ?_, ?_, ?_, ?_, ?_⟩
  · cases hbv : hooks.beforeHook with
    | throwSync e =>
      exact pairwise_phase_parts _
        [Ev.beforeEv ⟨false, none⟩] []
        ((handleErrorModel hooks e).2.2) []
        (by simp [runWrapped, hbv])
        (by intro x hx; simp at hx; subst hx; rfl)
        (by intro x hx; simp at hx)
        (phase_handleError _ _)
        (by intro x hx; simp at hx)
    | absent =>
      cases htr : (executeWithRetry cfg thunk rand).outcome with
      | error e =>
        exact pairwise_phase_parts _
          (hookEvOf hooks.beforeHook (Ev.beforeEv ⟨false, none⟩))
          (attemptSleepEvents (executeWithRetry cfg thunk rand).calls
            (executeWithRetry cfg thunk rand).sleeps)
          ((handleErrorModel hooks e).2.2)
          ((finallyStep hooks (handleErrorModel hooks e).1
            (WOutcome.rejected (handleErrorModel hooks e).2.1)).1)
          (by simp [runWrapped, hbv, htr, List.append_assoc] <;> rfl)
          (phase_hookEvOf_before _ _) (phase_attemptSleep _ _)
          (phase_handleError _ _) (phase_finallyStep _ _ _)
      | ok v =>
        cases hav : hooks.afterHook with
        | throwSync e =>
          exact pairwise_phase_parts _
            (hookEvOf hooks.beforeHook (Ev.beforeEv ⟨false, none⟩))
            (attemptSleepEvents (executeWithRetry cfg thunk rand).calls
              (executeWithRetry cfg thunk rand).sleeps)
            (Ev.afterEv ⟨true, none⟩ :: (handleErrorModel hooks e).2.2)
            ((finallyStep hooks (handleErrorModel hooks e).1
              (WOutcome.rejected (handleErrorModel hooks e).2.1)).1)
            (by simp [runWrapped, hbv, htr, hav, List.append_assoc] <;> rfl)
            (phase_hookEvOf_before _ _) (phase_attemptSleep _ _)
            (phase_after_and_handleError _ _ _) (phase_finallyStep _ _ _)
        | absent =>
          exact pairwise_phase_parts _
            (hookEvOf hooks.beforeHook (Ev.beforeEv ⟨false, none⟩))
            (attemptSleepEvents (executeWithRetry cfg thunk rand).calls
              (executeWithRetry cfg thunk rand).sleeps)
            (hookEvOf hooks.afterHook (Ev.afterEv ⟨true, none⟩))
            ((finallyStep hooks ⟨true, none⟩ (WOutcome.resolved v)).1)
            (by simp [runWrapped, hbv, htr, hav, List.append_assoc] <;> rfl)
            (phase_hookEvOf_before _ _) (phase_attemptSleep _ _)
            (phase_hookEvOf_after _ _) (phase_finallyStep _ _ _)
        | ok =>
          exact pairwise_phase_parts _
            (hookEvOf hooks.beforeHook (Ev.beforeEv ⟨false, none⟩))
            (attemptSleepEvents (executeWithRetry cfg thunk rand).calls
              (executeWithRetry cfg thunk rand).sleeps)
            (hookEvOf hooks.afterHook (Ev.afterEv ⟨true, none⟩))
            ((finallyStep hooks ⟨true, none⟩ (WOutcome.resolved v)).1)
            (by simp [runWrapped, hbv, htr, hav, List.append_assoc] <;> rfl)
            (phase_hookEvOf_before _ _) (phase_attemptSleep _ _)
            (phase_hookEvOf_after _ _) (phase_finallyStep _ _ _)
        | rejectAsync e2 =>
          exact pairwise_phase_parts _
            (hookEvOf hooks.beforeHook (Ev.beforeEv ⟨false, none⟩))
            (attemptSleepEvents (executeWithRetry cfg thunk rand).calls
              (executeWithRetry cfg thunk rand).sleeps)
            (hookEvOf hooks.afterHook (Ev.afterEv ⟨true, none⟩))
            ((finallyStep hooks ⟨true, none⟩ (WOutcome.resolved v)).1)
            (by simp [runWrapped, hbv, htr, hav, List.append_assoc] <;> rfl)
            (phase_hookEvOf_before _ _) (phase_attemptSleep _ _)
            (phase_hookEvOf_after _ _) (phase_finallyStep _ _ _)
    | ok =>
      cases htr : (executeWithRetry cfg thunk rand).outcome with
      | error e =>
        exact pairwise_phase_parts _
          (hookEvOf hooks.beforeHook (Ev.beforeEv ⟨false, none⟩))
          (attemptSleepEvents (executeWithRetry cfg thunk rand).calls
            (executeWithRetry cfg thunk rand).sleeps)
          ((handleErrorModel hooks e).2.2)
          ((finallyStep hooks (handleErrorModel hooks e).1
            (WOutcome.rejected (handleErrorModel hooks e).2.1)).1)
          (by simp [runWrapped, hbv, htr, List.append_assoc] <;> rfl)
          (phase_hookEvOf_before _ _) (phase_attemptSleep _ _)
          (phase_handleError _ _) (phase_finallyStep _ _ _)
      | ok v =>
        cases hav : hooks.afterHook with
        | throwSync e =>
          exact pairwise_phase_parts _
            (hookEvOf hooks.beforeHook (Ev.beforeEv ⟨false, none⟩))
            (attemptSleepEvents (executeWithRetry cfg thunk rand).calls
              (executeWithRetry cfg thunk rand).sleeps)
            (Ev.afterEv ⟨true, none⟩ :: (handleErrorModel hooks e).2.2)
            ((finallyStep hooks (handleErrorModel hooks e).1
              (WOutcome.rejected (handleErrorModel hooks e).2.1)).1)
            (by simp [runWrapped, hbv, htr, hav, List.append_assoc] <;> rfl)
            (phase_hookEvOf_before _ _) (phase_attemptSleep _ _)
            (phase_after_and_handleError _ _ _) (phase_finallyStep _ _ _)
        | absent =>
          exact pairwise_phase_parts _
            (hookEvOf hooks.beforeHook (Ev.beforeEv ⟨false, none⟩))
            (attemptSleepEvents (executeWithRetry cfg thunk rand).calls
              (executeWithRetry cfg thunk rand).sleeps)
            (hookEvOf hooks.afterHook (Ev.afterEv ⟨true, none⟩))
            ((finallyStep hooks ⟨true, none⟩ (WOutcome.resolved v)).1)
            (by simp [runWrapped, hbv, htr, hav, List.append_assoc] <;> rfl)
            (phase_hookEvOf_before _ _) (phase_attemptSleep _ _)
            (phase_hookEvOf_after _ _) (phase_finallyStep _ _ _)
        | ok =>
          exact pairwise_phase_parts _
            (hookEvOf hooks.beforeHook (Ev.beforeEv ⟨false, none⟩))
            (attemptSleepEvents (executeWithRetry cfg thunk rand).calls
              (executeWithRetry cfg thunk rand).sleeps)
            (hookEvOf hooks.afterHook (Ev.afterEv ⟨true, none⟩))
            ((finallyStep hooks ⟨true, none⟩ (WOutcome.resolved v)).1)
            (by simp [runWrapped, hbv, htr, hav, List.append_assoc] <;> rfl)
            (phase_hookEvOf_before _ _) (phase_attemptSleep _ _)
            (phase_hookEvOf_after _ _) (phase_finallyStep _ _ _)
        | rejectAsync e2 =>
          exact pairwise_phase_parts _
            (hookEvOf hooks.beforeHook (Ev.beforeEv ⟨false, none⟩))
            (attemptSleepEvents (executeWithRetry cfg thunk rand).calls
              (executeWithRetry cfg thunk rand).sleeps)
            (hookEvOf hooks.afterHook (Ev.afterEv ⟨true, none⟩))
            ((finallyStep hooks ⟨true, none⟩ (WOutcome.resolved v)).1)
            (by simp [runWrapped, hbv, htr, hav, List.append_assoc] <;> rfl)
            (phase_hookEvOf_before _ _) (phase_attemptSleep _ _)
            (phase_hookEvOf_after _ _) (phase_finallyStep _ _ _)
    | rejectAsync e0 =>
      cases htr : (executeWithRetry cfg thunk rand).outcome with
      | error e =>
        exact pairwise_phase_parts _
          (hookEvOf hooks.beforeHook (Ev.beforeEv ⟨false, none⟩))
          (attemptSleepEvents (executeWithRetry cfg thunk rand).calls
            (executeWithRetry cfg thunk rand).sleeps)
          ((handleErrorModel hooks e).2.2)
          ((finallyStep hooks (handleErrorModel hooks e).1
            (WOutcome.rejected (handleErrorModel hooks e).2.1)).1)
          (by simp [runWrapped, hbv, htr, List.append_assoc] <;> rfl)
          (phase_hookEvOf_before _ _) (phase_attemptSleep _ _)
          (phase_handleError _ _) (phase_finallyStep _ _ _)
      | ok v =>
        cases hav : hooks.afterHook with
        | throwSync e =>
          exact pairwise_phase_parts _
            (hookEvOf hooks.beforeHook (Ev.beforeEv ⟨false, none⟩))
            (attemptSleepEvents (executeWithRetry cfg thunk rand).calls
              (executeWithRetry cfg thunk rand).sleeps)
            (Ev.afterEv ⟨true, none⟩ :: (handleErrorModel hooks e).2.2)
            ((finallyStep hooks (handleErrorModel hooks e).1
              (WOutcome.rejected (handleErrorModel hooks e).2.1)).1)
            (by simp [runWrapped, hbv, htr, hav, List.append_assoc] <;> rfl)
            (phase_hookEvOf_before _ _) (phase_attemptSleep _ _)
            (phase_after_and_handleError _ _ _) (phase_finallyStep _ _ _)
        | absent =>
          exact pairwise_phase_parts _
            (hookEvOf hooks.beforeHook (Ev.beforeEv ⟨false, none⟩))
            (attemptSleepEvents (executeWithRetry cfg thunk rand).calls
              (executeWithRetry cfg thunk rand).sleeps)
            (hookEvOf hooks.afterHook (Ev.afterEv ⟨true, none⟩))
            ((finallyStep hooks ⟨true, none⟩ (WOutcome.resolved v)).1)
            (by simp [runWrapped, hbv, htr, hav, List.append_assoc] <;> rfl)
            (phase_hookEvOf_before _ _) (phase_attemptSleep _ _)
            (phase_hookEvOf_after _ _) (phase_finallyStep _ _ _)
        | ok =>
          exact pairwise_phase_parts _
            (hookEvOf hooks.beforeHook (Ev.beforeEv ⟨false, none⟩))
            (attemptSleepEvents (executeWithRetry cfg thunk rand).calls
              (executeWithRetry cfg thunk rand).sleeps)
            (hookEvOf hooks.afterHook (Ev.afterEv ⟨true, none⟩))
            ((finallyStep hooks ⟨true, none⟩ (WOutcome.resolved v)).1)
            (by simp [runWrapped, hbv, htr, hav, List.append_assoc] <;> rfl)
            (phase_hookEvOf_before _ _) (phase_attemptSleep _ _)
            (phase_hookEvOf_after _ _) (phase_finallyStep _ _ _)
        | rejectAsync e2 =>
          exact pairwise_phase_parts _
            (hookEvOf hooks.beforeHook (Ev.beforeEv ⟨false, none⟩))
            (attemptSleepEvents (executeWithRetry cfg thunk rand).calls
              (executeWithRetry cfg thunk rand).sleeps)
            (hookEvOf hooks.afterHook (Ev.afterEv ⟨true, none⟩))
            ((finallyStep hooks ⟨true, none⟩ (WOutcome.resolved v)).1)
            (by simp [runWrapped, hbv, htr, hav, List.append_assoc] <;> rfl)
            (phase_hookEvOf_before _ _) (phase_attemptSleep _ _)
            (phase_hookEvOf_after _ _) (phase_finallyStep _ _ _)
  · intro e hbe
    simp [runWrapped, hbe, WOutcome.isFailure]
  · intro e hav
    cases hbv : hooks.beforeHook with
    | throwSync e0 =>
      simp [runWrapped, hbv, WOutcome.isFailure]
    | absent =>
      exact runWrapped_afterThrow_isFailure hooks cfg thunk rand e
        (by rw [hbv]; rfl) hav
    | ok =>
      exact runWrapped_afterThrow_isFailure hooks cfg thunk rand e
        (by rw [hbv]; rfl) hav
    | rejectAsync e0 =>
      exact runWrapped_afterThrow_isFailure hooks cfg thunk rand e
        (by rw [hbv]; rfl) hav
  · intro e3 hfv
    cases hbv : hooks.beforeHook with
    | throwSync e0 =>
      simp [runWrapped, hbv, WOutcome.isFailure]
    | absent =>
      exact runWrapped_finallyThrow_isFailure hooks cfg thunk rand e3
        (by rw [hbv]; rfl) hfv
    | ok =>
      exact runWrapped_finallyThrow_isFailure hooks cfg thunk rand e3
        (by rw [hbv]; rfl) hfv
    | rejectAsync e0 =>
      exact runWrapped_finallyThrow_isFailure hooks cfg thunk rand e3
        (by rw [hbv]; rfl) hfv
  · intro e e2 hb honv hf htr
    rw [(runWrapped_error_case hooks cfg thunk rand e hb htr).1,
      finallyStep_preserves hooks _ _ hf]
    simp [handleErrorModel, honv]
  · intro v hb ha hf htr
    rw [(runWrapped_ok_case hooks cfg thunk rand v hb ha htr).1]
    exact finallyStep_preserves hooks _ _ hf

/-- Witness for `c5_hook_ordering`: with a synchronously-throwing after
hook and a successful thunk the events are phase-ordered and the call
fails; with a synchronously-throwing onError hook and a non-retryable
thunk failure the propagated error is the onError hook's own. -/
theorem c5_hook_ordering_witness :
    List.Pairwise (fun x y => Ev.phase x ≤ Ev.phase y)
      (runWrapped (V := Int)
        ⟨HookBeh.ok, HookBeh.throwSync ⟨some 1⟩, HookBeh.ok, HookBeh.ok⟩
        defaultConfig (fun _ => Except.ok 7) (fun _ => 0)).events ∧
    (runWrapped (V := Int)
        ⟨HookBeh.ok, HookBeh.throwSync ⟨some 1⟩, HookBeh.ok, HookBeh.ok⟩
        defaultConfig (fun _ => Except.ok 7)
        (fun _ => 0)).outcome.isFailure = true ∧
    (runWrapped (V := Int)
        ⟨HookBeh.ok, HookBeh.ok, HookBeh.throwSync ⟨some 9⟩, HookBeh.ok⟩
        defaultConfig (fun _ => Except.error ⟨some 401⟩)
        (fun _ => 0)).outcome = WOutcome.rejected ⟨some 9⟩ :=
  ⟨(c5_hook_ordering
      ⟨HookBeh.ok, HookBeh.throwSync ⟨some 1⟩, HookBeh.ok, HookBeh.ok⟩
      defaultConfig (fun _ => Except.ok 7) (fun _ => 0)).1,
   (c5_hook_ordering
      ⟨HookBeh.ok, HookBeh.throwSync ⟨some 1⟩, HookBeh.ok, HookBeh.ok⟩
      defaultConfig (fun _ => Except.ok 7) (fun _ => 0)).2.2.1
      ⟨some 1⟩ rfl,
   (c5_hook_ordering
      ⟨HookBeh.ok, HookBeh.ok, HookBeh.throwSync ⟨some 9⟩, HookBeh.ok⟩
      defaultConfig (fun _ => Except.error ⟨some 401⟩) (fun _ => 0)).2.2.2.2.1
      ⟨some 401⟩ ⟨some 9⟩ rfl rfl rfl rfl⟩

/-- Events of a wrapped invocation whose retry run succeeds and whose
before/after hooks do not throw synchronously. -/
theorem runWrapped_events_ok (hooks : Hooks E) (cfg : RetryConfig E)
    (thunk : Nat → Except E V) (rand : Nat → ℚ) (v : V)
    (hb : hooks.beforeHook.throwsSync = false)
    (ha : hooks.afterHook.throwsSync = false)
    (htr : (executeWithRetry cfg thunk rand).outcome = Except.ok v) :
    (runWrapped hooks cfg thunk rand).events
      = hookEvOf hooks.beforeHook (Ev.beforeEv ⟨false, none⟩)
        ++ attemptSleepEvents (executeWithRetry cfg thunk rand).calls
            (executeWithRetry cfg thunk rand).sleeps
        ++ hookEvOf hooks.afterHook (Ev.afterEv ⟨true, none⟩)
        ++ (finallyStep (V := V) hooks ⟨true, none⟩
            (WOutcome.resolved v)).1 := by
  cases hbv : hooks.beforeHook <;> cases hav : hooks.afterHook <;>
    simp_all [runWrapped, HookBeh.throwsSync, List.append_assoc]

/-- Events of a wrapped invocation whose retry run fails and whose
before hook does not throw synchronously. -/
theorem runWrapped_events_error (hooks : Hooks E) (cfg : RetryConfig E)
    (thunk : Nat → Except E V) (rand : Nat → ℚ) (e : E)
    (hb : hooks.beforeHook.throwsSync = false)
    (htr : (executeWithRetry cfg thunk rand).outcome = Except.error e) :
    (runWrapped hooks cfg thunk rand).events
      = hookEvOf hooks.beforeHook (Ev.beforeEv ⟨false, none⟩)
        ++ attemptSleepEvents (executeWithRetry cfg thunk rand).calls
            (executeWithRetry cfg thunk rand).sleeps
        ++ (handleErrorModel hooks e).2.2
        ++ (finallyStep (V := V) hooks (handleErrorModel hooks e).1
            (WOutcome.rejected (handleErrorModel hooks e).2.1)).1 := by
  cases hbv : hooks.beforeHook <;>
    simp_all [runWrapped, HookBeh.throwsSync, List.append_assoc]

/-- A hook invocation segment contains only the hook's own event. -/
theorem mem_hookEvOf (beh : HookBeh E) (ev x : Ev E)
    (h : x ∈ hookEvOf beh ev) : x = ev := by
  cases beh <;> simp_all [hookEvOf]

/-- Attempt-loop segments contain only attempt and sleep events. -/
theorem mem_attemptSleep :
    ∀ (n : Nat) (ds : List ℚ) (x : Ev E), x ∈ attemptSleepEvents n ds →
      x = Ev.attemptEv ∨ x = Ev.sleepEv := by
  intro n
  induction n with
  | zero => intro ds x h; simp [attemptSleepEvents] at h
  | succ n ih =>
    intro ds x h
    cases ds with
    | nil =>
      simp [attemptSleepEvents] at h
      exact Or.inl h
    | cons d ds =>
      simp only [attemptSleepEvents, List.mem_cons] at h
      rcases h with rfl | rfl | h
      · exact Or.inl rfl
      · exact Or.inr rfl
      · exact ih ds x h

/-- The `handleError` segment contains only the onError event, whose
context snapshot has the duration set and carries the error. -/
theorem mem_handleError (hooks : Hooks E) (e : E) (x : Ev E)
    (h : x ∈ (handleErrorModel hooks e).2.2) :
    x = Ev.onErrorEv ⟨true, some e⟩ := by
  cases ho : hooks.onErrorHook <;> simp_all [handleErrorModel]

/-- The `.finally` segment contains only the finally event with the
given context snapshot. -/
theorem mem_finallyStep (hooks : Hooks E) (c : Ctx E)
    (base : WOutcome E V) (x : Ev E)
    (h : x ∈ (finallyStep hooks c base).1) : x = Ev.finallyEv c := by
  cases hf : hooks.finallyHook <;> simp_all [finallyStep]

/-- C9 counterexample: the claim asserts the context's error is present
exactly when the call ultimately failed, but with a synchronously-
throwing finally hook on an otherwise successful call, the overall call
fails while the context never receives an error. -/
theorem c9_counterexample :
    (runWrapped (V := Int)
        ⟨HookBeh.ok, HookBeh.ok, HookBeh.ok, HookBeh.throwSync ⟨some 2⟩⟩
        defaultConfig (fun _ => Except.ok 7)
        (fun _ => 0)).outcome.isFailure = true ∧
    (runWrapped (V := Int)
        ⟨HookBeh.ok, HookBeh.ok, HookBeh.ok, HookBeh.throwSync ⟨some 2⟩⟩
        defaultConfig (fun _ => Except.ok 7)
        (fun _ => 0)).finalCtx.err = none := by
  decide

/-- C9 (amended): provided no hook callable throws synchronously, the
context invariant holds: the before hook observes a context with no
duration and no error; the after, onError and finally hooks observe a
context whose duration is set (the call has settled by then); once the
call settles the duration is set; and the final context carries an
error exactly when the wrapped call ultimately failed. -/
theorem c9_context_invariant (hooks : Hooks E) (cfg : RetryConfig E)
    (thunk : Nat → Except E V) (rand : Nat → ℚ)
    (hb : hooks.beforeHook.throwsSync = false)
    (ha : hooks.afterHook.throwsSync = false)
    (ho : hooks.onErrorHook.throwsSync = false)
    (hf : hooks.finallyHook.throwsSync = false) :
    (∀ c, Ev.beforeEv c ∈ (runWrapped hooks cfg thunk rand).events →
        c.durationSet = false ∧ c.err = none) ∧
    (∀ c, Ev.afterEv c ∈ (runWrapped hooks cfg thunk rand).events →
        c.durationSet = true) ∧
    (∀ c, Ev.onErrorEv c ∈ (runWrapped hooks cfg thunk rand).events →
        c.durationSet = true) ∧
    (∀ c, Ev.finallyEv c ∈ (runWrapped hooks cfg thunk rand).events →
        c.durationSet = true) ∧
    (runWrapped hooks cfg thunk rand).finalCtx.durationSet = true ∧
    ((runWrapped hooks cfg thunk rand).finalCtx.err.isSome
        = (runWrapped hooks cfg thunk rand).outcome.isFailure) := by
  cases htr : (executeWithRetry cfg thunk rand).outcome with
  | ok v =>
    have hev := runWrapped_events_ok hooks cfg thunk rand v hb ha htr
    have hoc := runWrapped_ok_case hooks cfg thunk rand v hb ha htr
    refine ⟨?_, ?_, ?_, ?_, ?_, ?_⟩
    · intro c hc
      rw [hev] at hc
      rcases List.mem_append.mp hc with h | h
      · rcases List.mem_append.mp h with h | h
        · rcases List.mem_append.mp h with h | h
          · have := mem_hookEvOf _ _ _ h
            injection this with hcc
            subst hcc
            exact ⟨rfl, rfl⟩
          · rcases mem_attemptSleep _ _ _ h with h2 | h2 <;> simp at h2
        · have := mem_hookEvOf _ _ _ h
          simp at this
      · have := mem_finallyStep _ _ _ _ h
        simp at this
    · intro c hc
      rw [hev] at hc
      rcases List.mem_append.mp hc with h | h
      · rcases List.mem_append.mp h with h | h
        · rcases List.mem_append.mp h with h | h
          · have := mem_hookEvOf _ _ _ h
            simp at this
          · rcases mem_attemptSleep _ _ _ h with h2 | h2 <;> simp at h2
        · have := mem_hookEvOf _ _ _ h
          injection this with hcc
          subst hcc
          rfl
      · have := mem_finallyStep _ _ _ _ h
        simp at this
    · intro c hc
      rw [hev] at hc
      rcases List.mem_append.mp hc with h | h
      · rcases List.mem_append.mp h with h | h
        · rcases List.mem_append.mp h with h | h
          · have := mem_hookEvOf _ _ _ h
            simp at this
          · rcases mem_attemptSleep _ _ _ h with h2 | h2 <;> simp at h2
        · have := mem_hookEvOf _ _ _ h
          simp at this
      · have := mem_finallyStep _ _ _ _ h
        simp at this
    · intro c hc
      rw [hev] at hc
      rcases List.mem_append.mp hc with h | h
      · rcases List.mem_append.mp h with h | h
        · rcases List.mem_append.mp h with h | h
          · have := mem_hookEvOf _ _ _ h
            simp at this
          · rcases mem_attemptSleep _ _ _ h with h2 | h2 <;> simp at h2
        · have := mem_hookEvOf _ _ _ h
          simp at this
      · have := mem_finallyStep _ _ _ _ h
        injection this with hcc
        subst hcc
        rfl
    · rw [hoc.2]
    · rw [hoc.2, hoc.1, finallyStep_preserves hooks _ _ hf]
      rfl
  | error e =>
    have hev := runWrapped_events_error hooks cfg thunk rand e hb htr
    have hoc := runWrapped_error_case hooks cfg thunk rand e hb htr
    have hctx : (handleErrorModel hooks e).1 = ⟨true, some e⟩ := by
      cases hov : hooks.onErrorHook <;> simp [handleErrorModel, hov]
    refine ⟨?_, ?_, ?_, ?_, ?_, ?_⟩
    · intro c hc
      rw [hev] at hc
      rcases List.mem_append.mp hc with h | h
      · rcases List.mem_append.mp h with h | h
        · rcases List.mem_append.mp h with h | h
          · have := mem_hookEvOf _ _ _ h
            injection this with hcc
            subst hcc
            exact ⟨rfl, rfl⟩
          · rcases mem_attemptSleep _ _ _ h with h2 | h2 <;> simp at h2
        · have := mem_handleError _ _ _ h
          simp at this
      · have := mem_finallyStep _ _ _ _ h
        simp at this
    · intro c hc
      rw [hev] at hc
      rcases List.mem_append.mp hc with h | h
      · rcases List.mem_append.mp h with h | h
        · rcases List.mem_append.mp h with h | h
          · have := mem_hookEvOf _ _ _ h
            simp at this
          · rcases mem_attemptSleep _ _ _ h with h2 | h2 <;> simp at h2
        · have := mem_handleError _ _ _ h
          simp at this
      · have := mem_finallyStep _ _ _ _ h
        simp at this
    · intro c hc
      rw [hev] at hc
      rcases List.mem_append.mp hc with h | h
      · rcases List.mem_append.mp h with h | h
        · rcases List.mem_append.mp h with h | h
          · have := mem_hookEvOf _ _ _ h
            simp at this
          · rcases mem_attemptSleep _ _ _ h with h2 | h2 <;> simp at h2
        · have := mem_handleError _ _ _ h
          injection this with hcc
          subst hcc
          rfl
      · have := mem_finallyStep _ _ _ _ h
        simp at this
    · intro c hc
      rw [hev] at hc
      rcases List.mem_append.mp hc with h | h
      · rcases List.mem_append.mp h with h | h
        · rcases List.mem_append.mp h with h | h
          · have := mem_hookEvOf _ _ _ h
            simp at this
          · rcases mem_attemptSleep _ _ _ h with h2 | h2 <;> simp at h2
        · have := mem_handleError _ _ _ h
          simp at this
      · have := mem_finallyStep _ _ _ _ h
        injection this with hcc
        subst hcc
        rw [hctx]
    · rw [hoc.2.1, hctx]
    · have hthr : (handleErrorModel hooks e).2.1 = e := by
        cases hov : hooks.onErrorHook <;>
          simp_all [handleErrorModel, HookBeh.throwsSync]
      rw [hoc.2.1, hoc.1, hctx, finallyStep_preserves hooks _ _ hf, hthr]
      rfl

/-- Witness for `c9_context_invariant`: with benign hooks and a
successful thunk, the final context has a duration, no error, and the
call resolves. -/
theorem c9_context_invariant_witness :
    (runWrapped (V := Int)
        ⟨HookBeh.ok, HookBeh.ok, HookBeh.ok, HookBeh.ok⟩
        defaultConfig (fun _ => Except.ok 7)
        (fun _ => 0)).finalCtx.durationSet = true ∧
    ((runWrapped (V := Int)
        ⟨HookBeh.ok, HookBeh.ok, HookBeh.ok, HookBeh.ok⟩
        defaultConfig (fun _ => Except.ok 7)
        (fun _ => 0)).finalCtx.err.isSome
      = (runWrapped (V := Int)
        ⟨HookBeh.ok, HookBeh.ok, HookBeh.ok, HookBeh.ok⟩
        defaultConfig (fun _ => Except.ok 7)
        (fun _ => 0)).outcome.isFailure) :=
  ⟨(c9_context_invariant
      ⟨HookBeh.ok, HookBeh.ok, HookBeh.ok, HookBeh.ok⟩ defaultConfig
      (fun _ => Except.ok 7) (fun _ => 0) rfl rfl rfl rfl).2.2.2.2.1,
   (c9_context_invariant
      ⟨HookBeh.ok, HookBeh.ok, HookBeh.ok, HookBeh.ok⟩ defaultConfig
      (fun _ => Except.ok 7) (fun _ => 0) rfl rfl rfl rfl).2.2.2.2.2⟩

/-- Embedding of the `name.startsWith('_')` test of `shouldWrapMethod`
on the string's character list (the two agree on every string: a string
starts with `"_"` exactly when its first character is the underscore;
the character-list form is used because it evaluates inside the
kernel). -/
def startsWithUnderscore (name : String) : Bool :=
  match name.data with
  | [] => false
  | c :: _ => c == '_'

/-- Embedding of the `MethodFilter` type of src/lib/types.ts: an
explicit name array or a predicate over method names. -/
inductive MethodFilter where
  | list (names : List String)
  | pred (f : String → Bool)

/-- The fields of `WrapClassOptions` consulted by `shouldWrapMethod`
(after `wrapClass` merged its defaults: `includeInherited = false`,
`includePrivate = false` unless overridden). -/
structure WrapClassOpts where
  includeInherited : Bool
  includePrivate : Bool
  methodFilter : Option MethodFilter

/-- Embedding of `shouldWrapMethod` of src/lib/types.ts.  The source's
first guard (`if (!filter && !options) return true`) is omitted: at
every call site `options` is the always-truthy merged `defaultOptions`
object, so the guard never fires. -/
def shouldWrapMethod (name : String) (filter : Option MethodFilter)
    (options : WrapClassOpts) (isInherited : Bool) : Bool :=
  if isInherited && !options.includeInherited then false
  else if !options.includePrivate && startsWithUnderscore name then false
  else if name == "constructor" then false
  else
    match filter with
    | some (MethodFilter.list l) => l.contains name
    | some (MethodFilter.pred f) => f name
    | none => true

/-- The instance-method names `wrapClass` replaces with wrapped
versions: the own prototype methods passing `shouldWrapMethod` with
`isInherited = false`, plus — when `includeInherited` is enabled — the
ancestor prototype methods passing it with `isInherited = true`
(src/lib/types.ts lines 199-230; `ownNames` stands for
`Object.getOwnPropertyNames(BaseClass.prototype)` and `inheritedNames`
for the names collected along the prototype chain). -/
def wrapClassInstanceMethodNames (ownNames inheritedNames : List String)
    (options : WrapClassOpts) : List String :=
  ownNames.filter
      (fun n => shouldWrapMethod n options.methodFilter options false)
    ++ (if options.includeInherited then
          inheritedNames.filter
            (fun n => shouldWrapMethod n options.methodFilter options true)
        else [])

/-- Characterization of `shouldWrapMethod` under an explicit name-array
filter: a name is wrapped exactly when it is listed, is not the
constructor, passes the inherited-method gate, and passes the
private-name gate. -/
theorem shouldWrapMethod_list_iff (name : String) (l : List String)
    (options : WrapClassOpts) (isInherited : Bool) :
    shouldWrapMethod name (some (MethodFilter.list l)) options isInherited
        = true ↔
      (name ∈ l ∧ name ≠ "constructor" ∧
       (isInherited = true → options.includeInherited = true) ∧
       (startsWithUnderscore name = true → options.includePrivate = true)) := by
  rcases options with ⟨inh, priv⟩
  unfold shouldWrapMethod
  cases isInherited <;> cases inh <;> cases priv <;>
    cases hu : startsWithUnderscore name <;>
      cases hc : name == "constructor" <;>
        simp_all [List.contains, List.elem_iff, beq_iff_eq]

/-- C8 counterexample: the claim asserts a listed method name is always
wrapped, but a listed name beginning with an underscore is excluded by
the private-name gate under the default `includePrivate = false`: with
`methodFilter = ['_secret']` the method `_secret` is not wrapped. -/
theorem c8_counterexample :
    "_secret" ∈ ["_secret"] ∧
    shouldWrapMethod "_secret" (some (MethodFilter.list ["_secret"]))
      ⟨false, false, some (MethodFilter.list ["_secret"])⟩ false = false ∧
    "_secret" ∉ wrapClassInstanceMethodNames ["_secret"] []
      ⟨false, false, some (MethodFilter.list ["_secret"])⟩ := by
  decide

/-- C8 (amended): with an explicit `methodFilter` array, an instance
method is wrapped exactly when its name is listed, is not the
constructor, passes the private-name gate (an underscore-prefixed name
needs `includePrivate`), and is an own method or — with
`includeInherited` — an inherited one.  In particular a name absent
from the list is never wrapped and the constructor is never wrapped. -/
theorem c8_method_filter_list (name : String) (l own inh : List String)
    (incInh incPriv : Bool) :
    name ∈ wrapClassInstanceMethodNames own inh
        ⟨incInh, incPriv, some (MethodFilter.list l)⟩ ↔
      (name ∈ l ∧ name ≠ "constructor" ∧
       (startsWithUnderscore name = true → incPriv = true) ∧
       (name ∈ own ∨ (incInh = true ∧ name ∈ inh))) := by
  cases incInh <;>
    simp [wrapClassInstanceMethodNames, List.mem_filter, List.mem_append,
      shouldWrapMethod_list_iff] <;>
    tauto

/-- A heap of JS objects for the prototype wiring of `wrapClass`:
objects are identified by numbers and `proto` gives each object's
`[[Prototype]]` link (`none` for a `null` prototype). -/
structure Heap where
  proto : Nat → Option Nat

/-- The prototype chain above a starting link, cut off at `fuel` steps
(every actual JS prototype chain is finite and acyclic, so a large
enough `fuel` observes all of it). -/
def protoList (h : Heap) : Nat → Option Nat → List Nat
  | _, none => []
  | 0, some _ => []
  | Nat.succ fuel, some o => o :: protoList h fuel (h.proto o)

/-- Embedding of `x instanceof C`: whether `C.prototype` (its object id)
occurs in the prototype chain of `x`, starting at `x`'s own prototype
link. -/
def isInstanceOf (h : Heap) (fuel : Nat) (x ctorPrototype : Nat) : Bool :=
  (protoList h fuel (h.proto x)).contains ctorPrototype

/-- Heap update giving object `o` the prototype `p`
(`Object.setPrototypeOf(o, p)` / allocation via `Object.create(p)`). -/
def setProto (h : Heap) (o p : Nat) : Heap :=
  ⟨fun n => if n = o then some p else h.proto n⟩

/-- Embedding of the prototype wiring performed by `wrapClass` together
with one construction `new Wrapped(...)`:
`Wrapped.prototype = Object.create(BaseClass.prototype)` gives the
freshly allocated object `w` the prototype `basePrototype`, and the
constructor body's
`Object.setPrototypeOf(this, Object.getPrototypeOf(instance))` resets
the constructed object `inst` to `basePrototype` (the prototype of a
direct `new BaseClass(...)` instance).  The assignment
`Wrapped.prototype.constructor = Wrapped` touches no prototype link. -/
def wrapClassHeap (h : Heap) (basePrototype w inst : Nat) : Heap :=
  setProto (setProto h w basePrototype) inst basePrototype

/-- Updating the prototype of an object not occurring in a chain leaves
that chain unchanged. -/
theorem protoList_setProto (h : Heap) (o p : Nat) :
    ∀ (fuel : Nat) (s : Option Nat), o ∉ protoList h fuel s →
      protoList (setProto h o p) fuel s = protoList h fuel s := by
  intro fuel
  induction fuel with
  | zero =>
    intro s _
    cases s <;> rfl
  | succ fuel ih =>
    intro s hs
    cases s with
    | none => rfl
    | some q =>
      rw [protoList] at hs ⊢
      rw [protoList]
      simp only [List.mem_cons, not_or] at hs
      have hq : (setProto h o p).proto q = h.proto q := by
        have hne : q ≠ o := fun hcon => hs.1 hcon.symm
        simp [setProto, hne]
      rw [hq, ih (h.proto q) hs.2]

/-- C10: after `wrapClass`, a constructed instance's prototype chain is
the base class's chain, so the instance satisfies
`instanceof BaseClass`; and `Wrapped.prototype` is a fresh object that
appears on no constructed instance's chain, so the instance does not
satisfy `instanceof Wrapped`.  Freshness of the allocated objects `w`
and `inst` is expressed by their absence from the base chain and their
distinctness. -/
theorem c10_instanceof (h : Heap) (basePrototype w inst : Nat)
    (fuel : Nat)
    (hw : w ∉ protoList h (fuel + 1) (some basePrototype))
    (hi : inst ∉ protoList h (fuel + 1) (some basePrototype))
    (hwi : w ≠ inst) :
    isInstanceOf (wrapClassHeap h basePrototype w inst) (fuel + 1)
        inst basePrototype = true ∧
    isInstanceOf (wrapClassHeap h basePrototype w inst) (fuel + 1)
        inst w = false := by
  have hbase : (wrapClassHeap h basePrototype w inst).proto inst
      = some basePrototype := by
    simp [wrapClassHeap, setProto]
  have hbp_w : basePrototype ≠ w := by
    intro hcon
    apply hw
    rw [protoList, ← hcon]
    exact List.mem_cons_self _ _
  have hbp_i : basePrototype ≠ inst := by
    intro hcon
    apply hi
    rw [protoList, ← hcon]
    exact List.mem_cons_self _ _
  have htail_w : w ∉ protoList h fuel (h.proto basePrototype) := by
    intro hcon
    apply hw
    rw [protoList]
    exact List.mem_cons_of_mem _ hcon
  have htail_i : inst ∉ protoList h fuel (h.proto basePrototype) := by
    intro hcon
    apply hi
    rw [protoList]
    exact List.mem_cons_of_mem _ hcon
  have hchain : protoList (wrapClassHeap h basePrototype w inst) (fuel + 1)
      (some basePrototype) = protoList h (fuel + 1) (some basePrototype) := by
    unfold wrapClassHeap
    rw [protoList_setProto, protoList_setProto]
    · exact hw
    · rw [protoList_setProto _ _ _ _ _ hw]
      exact hi
  constructor
  · unfold isInstanceOf
    rw [hbase, hchain, protoList]
    simp [List.contains, List.elem_iff]
  · unfold isInstanceOf
    rw [hbase, hchain]
    simp only [List.contains, List.elem_iff]
    simp only [Bool.eq_false_iff]
    intro hcon
    exact hw (by simpa [List.elem_iff] using hcon)

/-- Witness for `c10_instanceof`: base prototype 0 with a `null`
prototype, fresh wrapped-class prototype 1, fresh instance 2. -/
theorem c10_instanceof_witness :
    (1 ∉ protoList ⟨fun _ => none⟩ (2 + 1) (some 0) ∧
     2 ∉ protoList ⟨fun _ => none⟩ (2 + 1) (some 0) ∧ 1 ≠ 2) ∧
    isInstanceOf (wrapClassHeap ⟨fun _ => none⟩ 0 1 2) (2 + 1) 2 0 = true ∧
    isInstanceOf (wrapClassHeap ⟨fun _ => none⟩ 0 1 2) (2 + 1) 2 1 = false :=
  ⟨⟨by decide, by decide, by decide⟩,
   c10_instanceof ⟨fun _ => none⟩ 0 1 2 2 (by decide) (by decide) (by decide)⟩

/-- C3: the default retry predicate accepts an error exactly when the
error carries no numeric status, or carries status 429 or 503. -/
theorem c3_default_predicate (e : BErr) :
    defaultShouldRetry e = true ↔
      (e.status = none ∨ e.status = some 429 ∨ e.status = some 503) := by
  obtain ⟨s⟩ := e
  cases s with
  | none => simp [defaultShouldRetry]
  | some v =>
    constructor
    · intro h
      simp only [defaultShouldRetry, beq_iff_eq, Bool.or_eq_true] at h
      rcases h with h | h <;> simp [h]
    · intro h
      rcases h with h | h | h <;> simp_all [defaultShouldRetry]
